import Mathlib

set_option autoImplicit false

/-! Verification of the claim-extraction / claim-verification pipeline of
`src/app.py` (an AI fact-checking app).  The pipeline is embedded shallowly:

* Python values produced by `json.loads` become the inductive type `Json`
  (dicts are key/value lists; `json.loads` yields dicts with unique keys,
  and lookup takes the first binding).
* `json.loads` itself is standard-library code external to the repository,
  so the embedded functions take it as an explicit parameter
  `jsonLoads : String -> Except String Json` (errors model the exception
  raised on invalid JSON); all theorems quantify over it.
* Network calls (OpenAI chat completion, Tavily search) are unreliable
  upstream dependencies; their outcomes enter the model as `Except`-valued
  inputs (`.error` models the call raising an exception, `.ok` a response).
* Python exception propagation becomes `Except String`; a `try/except`
  block becomes a `match` on the propagated value.  A Lean function whose
  result type is not wrapped in `Except` therefore models Python code that
  never raises.
-/

/-- Backtick character (U+0060), written numerically. -/
def btick : Char := Char.ofNat 96

/-- The three-character markdown code fence delimiter. -/
def fence : List Char := [btick, btick, btick]

/-- The four characters of the fence language tag checked by
`claims_json.startswith("json")` (app.py lines 57 and 114). -/
def jsonTag : List Char := ['j', 's', 'o', 'n']

/-- Characters before the first occurrence of the three-backtick fence.
For a string that begins with a fence, Python `s.split` on the fence
yields exactly this list (applied to the characters after the leading
fence) as element 1 of the split, element 0 being the empty piece. -/
def takeUntilFence : List Char → List Char
  | [] => []
  | c :: r => if (c :: r).take 3 = fence then [] else c :: takeUntilFence r

/-- Python `str.strip()` on the character list: whitespace removed from
both ends (Lean `Char.isWhitespace` covers the ASCII whitespace that can
occur here). -/
def pyStrip (l : List Char) : List Char :=
  ((l.dropWhile Char.isWhitespace).reverse.dropWhile Char.isWhitespace).reverse

/-- Markdown-fence removal of app.py lines 55-58 (and identically 112-115):
if the text starts with a fence, keep `split("```")[1]`, and drop a leading
`json` language tag; otherwise leave the text unchanged. -/
def stripFencesL (l : List Char) : List Char :=
  if l.take 3 = fence then
    let t := takeUntilFence (l.drop 3)
    if t.take 4 = jsonTag then t.drop 4 else t
  else l

/-- String-level fence removal (app.py lines 55-58 / 112-115). -/
def stripFences (s : String) : String := String.mk (stripFencesL s.data)

/-- The guard `claims_json.startswith("```")` (app.py lines 55 / 112),
as a test on the first three characters. -/
def startsWithFence (s : String) : Bool := s.data.take 3 == fence

/-- Full cleaning of a raw model response, app.py lines 53-59 (and
identically 110-116): `strip()`, then fence removal, then `strip()`. -/
def clean (s : String) : String :=
  String.mk (pyStrip (stripFencesL (pyStrip s.data)))

/-- JSON values as returned by Python `json.loads`.  Objects are modelled
as association lists; `json.loads` produces dicts, whose keys are unique,
so lookup of the first binding is dict lookup. -/
inductive Json where
  | null
  | bool (b : Bool)
  | num (n : Int)
  | str (s : String)
  | arr (elems : List Json)
  | obj (fields : List (String × Json))

/-- Dict key used by the extractor and verifier (app.py lines 62, 119). -/
def claimKey : String := "claim"

/-- Dict key of the verdict status (app.py lines 125, 179-181, 199). -/
def statusKey : String := "status"

/-- Dict key of the verdict explanation (app.py line 126). -/
def explanationKey : String := "explanation"

/-- Dict key of the verdict sources (app.py line 127). -/
def sourcesKey : String := "sources"

/-- Dict key in the Tavily response (app.py line 80). -/
def resultsKey : String := "results"

/-- Dict key of an evidence item's url (app.py line 79). -/
def urlKey : String := "url"

/-- Dict key of an evidence item's content snippet (app.py line 79). -/
def contentKey : String := "content"

/-- Left-to-right effectful map over a list, first exception wins: the
evaluation order of a Python list comprehension whose element expression
may raise. -/
def mapExcept {α β : Type} (f : α → Except String β) : List α → Except String (List β)
  | [] => .ok []
  | a :: as =>
    match f a with
    | .error e => .error e
    | .ok b =>
      match mapExcept f as with
      | .error e => .error e
      | .ok bs => .ok (b :: bs)

/-- The subscript `c['claim']` applied to one element of the parsed
extraction array (app.py line 62): a `KeyError` if the dict lacks the
key, a `TypeError` if the element is not a dict. -/
def getClaimField (c : Json) : Except String Json :=
  match c with
  | .obj fields =>
    match fields.lookup claimKey with
    | some v => .ok v
    | none => .error ("KeyError: claim")
  | _ => .error ("TypeError: element is not a dict")

/-- The comprehension `[c['claim'] for c in claims_data]` (app.py line 62).
Iterating a non-empty dict yields its keys (strings) and a non-empty
string yields its characters, so subscripting with `'claim'` raises
`TypeError`; empty dicts and strings iterate to nothing; other scalars
are not iterable. -/
def claimsFromData (j : Json) : Except String (List Json) :=
  match j with
  | .arr elems => mapExcept getClaimField elems
  | .obj fields =>
    if fields.isEmpty then .ok [] else .error ("TypeError: string indices must be integers")
  | .str s =>
    if s.isEmpty then .ok [] else .error ("TypeError: string indices must be integers")
  | _ => .error ("TypeError: object is not iterable")

/-- Message shown by `st.error` on extraction failure (app.py line 64). -/
def extractErrMsg (e : String) : String := "Error extracting claims: " ++ e

/-- Body of the `try` block of `extract_claims` (app.py lines 42-62):
the chat-completion request (`resp`, `.error` = the request raised),
cleaning of the response content (lines 53-59), `json.loads` (line 61)
and the claim-field comprehension (line 62).  Any raised exception
propagates as `.error`. -/
def extractRun (jsonLoads : String → Except String Json)
    (resp : Except String String) : Except String (List Json) :=
  match resp with
  | .error e => .error e
  | .ok content =>
    match jsonLoads (clean content) with
    | .error e => .error e
    | .ok data => claimsFromData data

/-- The function `extract_claims` (app.py lines 24-65).  The second
component models the error channel: the messages passed to `st.error`
in the `except` handler (line 64).  The function itself never raises:
its result is not `Except`-wrapped. -/
def extract_claims (jsonLoads : String → Except String Json)
    (resp : Except String String) : List Json × List String :=
  match extractRun jsonLoads resp with
  | .ok cs => (cs, [])
  | .error e => ([], [extractErrMsg e])

/-- Python `str()` of a value interpolated into an f-string (app.py
line 79).  Container renderings are abbreviated; no claim depends on the
rendered context text, only on whether building it raises. -/
def pyStr : Json → String
  | .null => "None"
  | .bool b => if b then "True" else "False"
  | .num n => toString n
  | .str s => s
  | .arr _ => "<list>"
  | .obj _ => "<dict>"

/-- One line `f"Source: {r['url']}\n{r['content']}"` of the evidence
context (app.py line 79): raises if the item is not a dict or lacks a
key. -/
def evidenceLine (r : Json) : Except String String :=
  match r with
  | .obj fields =>
    match fields.lookup urlKey, fields.lookup contentKey with
    | some u, some c => .ok ("Source: " ++ pyStr u ++ "\n" ++ pyStr c)
    | _, _ => .error ("KeyError: url or content")
  | _ => .error ("TypeError: evidence item is not a dict")

/-- The context string `"\n\n".join([... for r in ...])` (app.py lines
78-81), with the same iteration semantics as `claimsFromData`. -/
def buildContext (results : Json) : Except String String :=
  match results with
  | .arr rs =>
    match mapExcept evidenceLine rs with
    | .error e => .error e
    | .ok lines => .ok (String.intercalate ("\n\n") lines)
  | .obj fields =>
    if fields.isEmpty then .ok ("") else .error ("TypeError: string indices must be integers")
  | .str s =>
    if s.isEmpty then .ok ("") else .error ("TypeError: string indices must be integers")
  | _ => .error ("TypeError: object is not iterable")

/-- The call `search_results.get('results', [])` (app.py line 80):
dict `.get` with default `[]`; on a non-dict the attribute access
raises. -/
def getResults (sr : Json) : Except String Json :=
  match sr with
  | .obj fields => .ok ((fields.lookup resultsKey).getD (.arr []))
  | _ => .error ("AttributeError: object has no attribute get")

/-- Python dict item assignment `d[k] = v`: overwrite in place if the key
exists (position preserved), otherwise append at the end. -/
def setKey (fields : List (String × Json)) (k : String) (v : Json) :
    List (String × Json) :=
  if fields.any (fun p => p.fst == k) then
    fields.map (fun p => if p.fst == k then (k, v) else p)
  else fields ++ [(k, v)]

/-- The assignment `result['claim'] = claim` (app.py line 119): raises
`TypeError` when the parsed value is not a dict. -/
def attachClaim (j : Json) (c : Json) : Except String Json :=
  match j with
  | .obj fields => .ok (.obj (setKey fields claimKey c))
  | _ => .error ("TypeError: object does not support item assignment")

/-- The explanation text of the failure verdict (app.py line 126). -/
def verifyErrMsg (e : String) : String := "Could not verify: " ++ e

/-- The dict literal returned by the `except` handler of `verify_claim`
(app.py lines 123-128). -/
def errorVerdict (c : Json) (cause : String) : Json :=
  .obj [(claimKey, c), (statusKey, .str ("Error")),
        (explanationKey, .str (verifyErrMsg cause)),
        (sourcesKey, .arr [])]

/-- Body of the `try` block of `verify_claim` (app.py lines 70-121):
the Tavily search (`searchResp`, `.error` = the call raised), the
`.get('results', [])` access, the context build, the chat completion
(`llmResp`), cleaning (lines 110-116), `json.loads` (line 118) and the
claim attachment (line 119).  Any raised exception propagates. -/
def verifyRun (jsonLoads : String → Except String Json) (claim : Json)
    (searchResp : Except String Json) (llmResp : Except String String) :
    Except String Json :=
  match searchResp with
  | .error e => .error e
  | .ok sr =>
    match getResults sr with
    | .error e => .error e
    | .ok results =>
      match buildContext results with
      | .error e => .error e
      | .ok _context =>
        match llmResp with
        | .error e => .error e
        | .ok content =>
          match jsonLoads (clean content) with
          | .error e => .error e
          | .ok parsed => attachClaim parsed claim

/-- The function `verify_claim` (app.py lines 67-128): the `try` body,
with every raised exception converted by the `except` handler into the
failure verdict.  The result type is bare `Json`: the function never
raises. -/
def verify_claim (jsonLoads : String → Except String Json) (claim : Json)
    (searchResp : Except String Json) (llmResp : Except String String) : Json :=
  match verifyRun jsonLoads claim searchResp llmResp with
  | .ok v => v
  | .error e => errorVerdict claim e

/-- The `claim` entry of a verdict dict. -/
def claimField (j : Json) : Option Json :=
  match j with
  | .obj fields => fields.lookup claimKey
  | _ => none

/-- The `status` entry of a verdict dict. -/
def statusField (j : Json) : Option Json :=
  match j with
  | .obj fields => fields.lookup statusKey
  | _ => none

/-- The `explanation` entry of a verdict dict. -/
def explanationField (j : Json) : Option Json :=
  match j with
  | .obj fields => fields.lookup explanationKey
  | _ => none

/-- The `sources` entry of a verdict dict. -/
def sourcesField (j : Json) : Option Json :=
  match j with
  | .obj fields => fields.lookup sourcesKey
  | _ => none

/-- Behaviour of the two upstream services during the verification loop:
for each claim index, the outcome of the Tavily search and of the chat
completion for that iteration. -/
structure Env where
  searchResp : Nat → Except String Json
  llmResp : Nat → Except String String

/-- The verification loop body from index `i` on (app.py lines 167-171):
`verify_claim` applied to each claim in order, appending each verdict. -/
def runFrom (jsonLoads : String → Except String Json) (env : Env) :
    Nat → List Json → List Json
  | _, [] => []
  | i, c :: cs =>
    verify_claim jsonLoads c (env.searchResp i) (env.llmResp i) ::
      runFrom jsonLoads env (i + 1) cs

/-- The verification loop (app.py lines 163-171): the `results` list after
the loop over `enumerate(claims)`. -/
def runVerification (jsonLoads : String → Except String Json) (env : Env)
    (claims : List Json) : List Json :=
  runFrom jsonLoads env 0 claims

/-- The subscript `r[k]` on a verdict: `KeyError` if missing, `TypeError`
if the verdict is not a dict. -/
def getField (j : Json) (k : String) : Except String Json :=
  match j with
  | .obj fields =>
    match fields.lookup k with
    | some v => .ok v
    | none => .error ("KeyError: " ++ k)
  | _ => .error ("TypeError: not subscriptable")

/-- Python equality of a value against a string literal: true exactly for
the equal string (comparison with a non-string is `False`, not an
error). -/
def isStrEq (j : Json) (t : String) : Bool :=
  match j with
  | .str s => s == t
  | _ => false

/-- One summary count `sum(1 for r in results if r['status'] == target)`
(app.py lines 179-181): evaluates `r['status']` left to right, so a
verdict without a `status` key raises. -/
def countStatus : List Json → String → Except String Nat
  | [], _ => .ok 0
  | r :: rest, target =>
    match getField r statusKey with
    | .error e => .error e
    | .ok s =>
      match countStatus rest target with
      | .error e => .error e
      | .ok n => .ok (n + (if isStrEq s target then 1 else 0))

/-- Observable end state of one document run (app.py lines 138-218). -/
structure RunState where
  tempFileExists : Bool
  errorShown : Option String

/-- One document run (app.py lines 138-218): the uploaded file is written
to a `NamedTemporaryFile(delete=False)` (lines 140-142); the whole body —
PDF text extraction and the pipeline — runs inside `try` (lines 145-211),
whose `except Exception` handler shows the error (line 214); the `finally`
block deletes the temporary file if it still exists (lines 215-218).
`body` is the outcome of the `try` body, `.error` modelling any exception
raised during text extraction or pipeline processing. -/
def processUpload (body : Except String Unit) : RunState :=
  let s0 : RunState := { tempFileExists := true, errorShown := none }
  let s1 : RunState :=
    match body with
    | .ok _ => s0
    | .error e => { s0 with errorShown := some ("Error processing PDF: " ++ e) }
  if s1.tempFileExists then { s1 with tempFileExists := false } else s1

/-- Whether a parsed array element is a dict containing the `claim` key:
the condition under which the subscript `c['claim']` succeeds (app.py
line 62). -/
def hasClaimKey (j : Json) : Bool :=
  match j with
  | .obj fields => fields.any (fun p => p.fst == claimKey)
  | _ => false

/-- No position of the character list starts a three-backtick fence. -/
def fenceFree : List Char → Bool
  | [] => true
  | c :: r => (!((c :: r).take 3 == fence)) && fenceFree r

/-- Test claim value. -/
def c0 : Json := .str ("c")

/-- Test search outcome: the search succeeded and returned a dict without
a `results` key, so `.get('results', [])` yields the empty list. -/
def sr0 : Except String Json := .ok (.obj [])

/-- Test chat-completion outcome: a one-character response body. -/
def lr0 : Except String String := .ok ("x")

/-- Test parser: every string parses to the object
with a single field `status` holding the string `Maybe`. -/
def jl0 : String → Except String Json :=
  fun _ => .ok (.obj [(statusKey, .str ("Maybe"))])

/-- Test parser: every string parses to an object with none of the
verdict fields. -/
def jl5 : String → Except String Json :=
  fun _ => .ok (.obj [("foo", .num 1)])

/-- Test parser: every string parses to a one-element claims array whose
claim string is empty. -/
def jl8 : String → Except String Json :=
  fun _ => .ok (.arr [.obj [(claimKey, .str (""))]])

/-- Test parser: every string parses to a one-element well-formed claims
array. -/
def jl8w : String → Except String Json :=
  fun _ => .ok (.arr [.obj [(claimKey, .str ("a"))]])

/-- Test parser: every string parses to a claims array with one
well-formed element followed by one element that is not a dict. -/
def jl10 : String → Except String Json :=
  fun _ => .ok (.arr [.obj [(claimKey, .str ("a"))], .str ("bad")])

/-- Test environment: every iteration gets `sr0` and `lr0`. -/
def env1 : Env := { searchResp := fun _ => sr0, llmResp := fun _ => lr0 }

/-- Test claim list with a single claim. -/
def claims1 : List Json := [c0]

/-- Test verdict list: one failure verdict. -/
def results2 : List Json := [errorVerdict c0 ("network error")]

/-! Helper lemmas about association-list lookup and the pipeline runs. -/

theorem lookup_cons_hit {β : Type} (a : String) (p : String × β) (es : List (String × β))
    (h : p.fst = a) : List.lookup a (p :: es) = some p.snd := by
  cases p with
  | mk x y =>
    simp only at h
    subst h
    simp [List.lookup]

theorem lookup_cons_miss {β : Type} (a : String) (p : String × β) (es : List (String × β))
    (h : ¬p.fst = a) : List.lookup a (p :: es) = List.lookup a es := by
  cases p with
  | mk x y =>
    simp only at h
    simp [List.lookup, beq_eq_false_iff_ne.mpr (Ne.symm h)]

theorem lookup_map_self (fields : List (String × Json)) (k : String) (v : Json)
    (h : fields.any (fun p => p.fst == k) = true) :
    (fields.map (fun p => if p.fst == k then (k, v) else p)).lookup k = some v := by
  induction fields with
  | nil => simp at h
  | cons p rest ih =>
    rw [List.any_cons] at h
    simp only [List.map_cons]
    by_cases hpk : p.fst = k
    · rw [if_pos (beq_iff_eq.mpr hpk)]
      exact lookup_cons_hit k (k, v) _ rfl
    · rw [if_neg (by simp [beq_eq_false_iff_ne.mpr hpk])]
      rw [lookup_cons_miss k p _ hpk]
      apply ih
      rcases Bool.or_eq_true _ _ |>.mp h with h1 | h2
      · exact absurd (eq_of_beq h1) hpk
      · exact h2

theorem lookup_append_last (fields : List (String × Json)) (k : String) (v : Json)
    (h : fields.any (fun p => p.fst == k) = false) :
    (fields ++ [(k, v)]).lookup k = some v := by
  induction fields with
  | nil => exact lookup_cons_hit k (k, v) [] rfl
  | cons p rest ih =>
    rw [List.any_cons, Bool.or_eq_false_iff] at h
    rw [List.cons_append, lookup_cons_miss k p _ (by
      intro hh
      rw [beq_iff_eq.mpr hh] at h
      exact Bool.true_eq_false.mp h.1)]
    exact ih h.2

theorem lookup_setKey_self (fields : List (String × Json)) (k : String) (v : Json) :
    (setKey fields k v).lookup k = some v := by
  unfold setKey
  by_cases h : fields.any (fun p => p.fst == k) = true
  · rw [if_pos h]
    exact lookup_map_self fields k v h
  · have h0 : fields.any (fun p => p.fst == k) = false := Bool.eq_false_iff.mpr h
    rw [if_neg (by simp [h0])]
    exact lookup_append_last fields k v h0

theorem lookup_map_ne (fields : List (String × Json)) (k k2 : String) (v : Json)
    (hne : k ≠ k2) :
    (fields.map (fun p => if p.fst == k then (k, v) else p)).lookup k2 =
      fields.lookup k2 := by
  induction fields with
  | nil => rfl
  | cons p rest ih =>
    simp only [List.map_cons]
    by_cases hpk : p.fst = k
    · rw [if_pos (beq_iff_eq.mpr hpk)]
      rw [lookup_cons_miss k2 (k, v) _ (by simpa using Ne.symm (fun hh => hne hh.symm))]
      rw [lookup_cons_miss k2 p _ (by rw [hpk]; exact fun hh => hne hh)]
      exact ih
    · rw [if_neg (by simp [beq_eq_false_iff_ne.mpr hpk])]
      by_cases hq : p.fst = k2
      · rw [lookup_cons_hit k2 p _ hq, lookup_cons_hit k2 p _ hq]
      · rw [lookup_cons_miss k2 p _ hq, lookup_cons_miss k2 p _ hq]
        exact ih

theorem lookup_append_ne (fields : List (String × Json)) (k k2 : String) (v : Json)
    (hne : k ≠ k2) :
    (fields ++ [(k, v)]).lookup k2 = fields.lookup k2 := by
  induction fields with
  | nil =>
    rw [List.nil_append]
    exact lookup_cons_miss k2 (k, v) [] hne
  | cons p rest ih =>
    rw [List.cons_append]
    by_cases hq : p.fst = k2
    · rw [lookup_cons_hit k2 p _ hq, lookup_cons_hit k2 p _ hq]
    · rw [lookup_cons_miss k2 p _ hq, lookup_cons_miss k2 p _ hq]
      exact ih

theorem lookup_setKey_ne (fields : List (String × Json)) (k k2 : String) (v : Json)
    (hne : k ≠ k2) : (setKey fields k v).lookup k2 = fields.lookup k2 := by
  unfold setKey
  by_cases h : fields.any (fun p => p.fst == k) = true
  · rw [if_pos h]
    exact lookup_map_ne fields k k2 v hne
  · rw [if_neg (by simp [Bool.eq_false_iff.mpr h])]
    exact lookup_append_ne fields k k2 v hne

theorem claimField_errorVerdict (c : Json) (cause : String) :
    claimField (errorVerdict c cause) = some c := by
  simp only [claimField, errorVerdict]
  exact lookup_cons_hit claimKey (claimKey, c) _ rfl

theorem statusField_errorVerdict (c : Json) (cause : String) :
    statusField (errorVerdict c cause) = some (Json.str ("Error")) := by
  simp only [statusField, errorVerdict]
  rw [lookup_cons_miss statusKey (claimKey, c) _ (show ¬claimKey = statusKey by decide)]
  exact lookup_cons_hit statusKey (statusKey, Json.str ("Error")) _ rfl

theorem explanationField_errorVerdict (c : Json) (cause : String) :
    explanationField (errorVerdict c cause) = some (Json.str (verifyErrMsg cause)) := by
  simp only [explanationField, errorVerdict]
  rw [lookup_cons_miss explanationKey (claimKey, c) _
    (show ¬claimKey = explanationKey by decide)]
  rw [lookup_cons_miss explanationKey (statusKey, Json.str ("Error")) _
    (show ¬statusKey = explanationKey by decide)]
  exact lookup_cons_hit explanationKey (explanationKey, Json.str (verifyErrMsg cause)) _ rfl

theorem sourcesField_errorVerdict (c : Json) (cause : String) :
    sourcesField (errorVerdict c cause) = some (Json.arr []) := by
  simp only [sourcesField, errorVerdict]
  rw [lookup_cons_miss sourcesKey (claimKey, c) _ (show ¬claimKey = sourcesKey by decide)]
  rw [lookup_cons_miss sourcesKey (statusKey, Json.str ("Error")) _
    (show ¬statusKey = sourcesKey by decide)]
  rw [lookup_cons_miss sourcesKey (explanationKey, Json.str (verifyErrMsg cause)) _
    (show ¬explanationKey = sourcesKey by decide)]
  exact lookup_cons_hit sourcesKey (sourcesKey, Json.arr []) _ rfl

theorem attachClaim_ok (j c v : Json) (h : attachClaim j c = .ok v) :
    ∃ fields, j = .obj fields ∧ v = .obj (setKey fields claimKey c) := by
  cases j <;> simp [attachClaim] at h
  exact ⟨_, rfl, h.symm⟩

theorem verifyRun_ok (jl : String → Except String Json) (c : Json)
    (sr : Except String Json) (lr : Except String String) (v : Json)
    (h : verifyRun jl c sr lr = .ok v) :
    ∃ fields, v = .obj (setKey fields claimKey c) := by
  unfold verifyRun at h
  repeat' split at h
  all_goals first
    | exact Except.noConfusion h
    | exact (attachClaim_ok _ _ _ h).elim (fun fs hfs => ⟨fs, hfs.2⟩)

theorem verify_claim_of_run_error (jl : String → Except String Json) (c : Json)
    (sr : Except String Json) (lr : Except String String) (e : String)
    (h : verifyRun jl c sr lr = .error e) :
    verify_claim jl c sr lr = errorVerdict c e := by
  unfold verify_claim
  rw [h]

theorem verify_claim_of_run_ok (jl : String → Except String Json) (c : Json)
    (sr : Except String Json) (lr : Except String String) (v : Json)
    (h : verifyRun jl c sr lr = .ok v) :
    verify_claim jl c sr lr = v := by
  unfold verify_claim
  rw [h]

/-- C9: on every exit path of a document run — normal completion and every
exception raised during PDF text extraction or pipeline processing — the
temporary file holding the uploaded document is deleted before the run
ends (the `finally` block of app.py lines 215-218 runs after both the
normal and the `except` path). -/
theorem C9_temp_file_deleted_on_every_exit (body : Except String Unit) :
    (processUpload body).tempFileExists = false := by
  cases body <;> rfl

/-- C2: `verify_claim` never raises — its Lean embedding returns a bare
`Json` verdict for every behaviour of the evidence retriever and the
text-generation service — and on every failure path (any exception in the
`try` body, i.e. `verifyRun` yielding an error) the resulting verdict is
the failure verdict: status `Error`, explanation `Could not verify: `
followed by the cause, and an empty sources list. -/
theorem C2_verify_claim_failure_shape (jl : String → Except String Json)
    (c : Json) (sr : Except String Json) (lr : Except String String) (e : String)
    (h : verifyRun jl c sr lr = .error e) :
    verify_claim jl c sr lr = errorVerdict c e ∧
    statusField (verify_claim jl c sr lr) = some (Json.str ("Error")) ∧
    explanationField (verify_claim jl c sr lr) =
      some (Json.str (("Could not verify: ") ++ e)) ∧
    sourcesField (verify_claim jl c sr lr) = some (Json.arr []) := by
  have hv := verify_claim_of_run_error jl c sr lr e h
  refine ⟨hv, ?_, ?_, ?_⟩ <;> rw [hv]
  · exact statusField_errorVerdict c e
  · exact explanationField_errorVerdict c e
  · exact sourcesField_errorVerdict c e

/-- Witness for C2 at a concrete input: the evidence retriever raises a
network exception. -/
theorem C2_verify_claim_failure_shape_witness :
    verify_claim jl0 c0 (Except.error ("network error")) lr0 =
      errorVerdict c0 ("network error") :=
  (C2_verify_claim_failure_shape jl0 c0 (Except.error ("network error")) lr0
    ("network error") rfl).1

/-- C6: `extract_claims` never propagates an exception (its embedding
returns a bare pair); when the chat-completion request raises, and when
the cleaned response content is not valid JSON, it returns the empty
claim sequence and reports the error on the caller's error channel
(the `st.error` message list). -/
theorem C6_extract_claims_fails_soft (jl : String → Except String Json)
    (resp : Except String String) :
    (∀ e, resp = .error e →
      extract_claims jl resp = ([], [extractErrMsg e])) ∧
    (∀ s e, resp = .ok s → jl (clean s) = .error e →
      extract_claims jl resp = ([], [extractErrMsg e])) := by
  constructor
  · rintro e rfl
    rfl
  · rintro s e rfl hp
    simp [extract_claims, extractRun, hp]

/-- Witness for C6 at a concrete input: the extraction request raises. -/
theorem C6_extract_claims_fails_soft_witness :
    extract_claims jl0 (Except.error ("boom")) = ([], [extractErrMsg ("boom")]) :=
  (C6_extract_claims_fails_soft jl0 (Except.error ("boom"))).1 ("boom") rfl

/-- C5 counterexample: a classification response that parses as a JSON
object with none of the required fields (here `{"foo": 1}`) is NOT turned
into the failure verdict: `verify_claim` returns it with only the claim
attached, and its status field is absent rather than `Error`. -/
theorem C5_counterexample :
    verify_claim jl5 c0 sr0 lr0 = Json.obj [("foo", Json.num 1), (claimKey, c0)] ∧
    statusField (verify_claim jl5 c0 sr0 lr0) = none :=
  ⟨rfl, rfl⟩

/-- C5 amended: only raised exceptions — network failure, malformed JSON,
or a response parsing to a JSON non-object, where attaching the claim
raises `TypeError` — produce the failure verdict
`{status: Error, explanation: "Could not verify: <cause>", sources: []}`;
a response that parses as a JSON object is returned with the original
claim attached even when `status`, `explanation` or `sources` are
missing. -/
theorem C5_amended_only_exceptions_fail (jl : String → Except String Json)
    (c : Json) (sr : Except String Json) (lr : Except String String) :
    (∀ e, verifyRun jl c sr lr = .error e →
      verify_claim jl c sr lr = errorVerdict c e) ∧
    (∀ v, verifyRun jl c sr lr = .ok v →
      verify_claim jl c sr lr = v ∧
      ∃ fields, v = Json.obj (setKey fields claimKey c)) := by
  constructor
  · intro e h
    exact verify_claim_of_run_error jl c sr lr e h
  · intro v h
    exact ⟨verify_claim_of_run_ok jl c sr lr v h, verifyRun_ok jl c sr lr v h⟩

/-- Witness for C5 amended at a concrete input: a field-less JSON object
response sails through with the claim attached. -/
theorem C5_amended_witness :
    verify_claim jl5 c0 sr0 lr0 = Json.obj [("foo", Json.num 1), (claimKey, c0)] :=
  ((C5_amended_only_exceptions_fail jl5 c0 sr0 lr0).2
    (Json.obj [("foo", Json.num 1), (claimKey, c0)]) rfl).1

/-- C4 counterexample: when the text-generation service returns the JSON
object `{"status": "Maybe"}`, the verdict returned by `verify_claim`
carries status `Maybe`, which is none of Verified, Inaccurate, False,
Error. -/
theorem C4_counterexample :
    statusField (verify_claim jl0 c0 sr0 lr0) = some (Json.str ("Maybe")) ∧
    ¬(("Maybe" : String) = "Verified" ∨ ("Maybe" : String) = "Inaccurate" ∨
      ("Maybe" : String) = "False" ∨ ("Maybe" : String) = "Error") :=
  ⟨rfl, by decide⟩

/-- C4 amended: for every text-generation-service response, the verdict's
status is `Error` on the failure path, and otherwise the verdict is the
parsed response object with the claim attached, whose status is exactly
the `status` value of that object — possibly absent or outside
{Verified, Inaccurate, False, Error}; `verify_claim` does not validate
it. -/
theorem C4_amended_status_unvalidated (jl : String → Except String Json)
    (c : Json) (sr : Except String Json) (lr : Except String String) :
    statusField (verify_claim jl c sr lr) = some (Json.str ("Error")) ∨
    ∃ fields, verify_claim jl c sr lr = Json.obj (setKey fields claimKey c) ∧
      statusField (verify_claim jl c sr lr) = fields.lookup statusKey := by
  cases h : verifyRun jl c sr lr with
  | error e =>
    left
    rw [verify_claim_of_run_error jl c sr lr e h]
    exact statusField_errorVerdict c e
  | ok v =>
    right
    obtain ⟨fs, hfs⟩ := verifyRun_ok jl c sr lr v h
    have hv : verify_claim jl c sr lr = v := verify_claim_of_run_ok jl c sr lr v h
    subst hfs
    refine ⟨fs, hv, ?_⟩
    rw [hv]
    simp only [statusField]
    exact lookup_setKey_ne fs claimKey statusKey c (by decide)

theorem claimField_verify (jl : String → Except String Json) (c : Json)
    (sr : Except String Json) (lr : Except String String) :
    claimField (verify_claim jl c sr lr) = some c := by
  cases h : verifyRun jl c sr lr with
  | error e =>
    rw [verify_claim_of_run_error jl c sr lr e h]
    exact claimField_errorVerdict c e
  | ok v =>
    obtain ⟨fs, hfs⟩ := verifyRun_ok jl c sr lr v h
    rw [verify_claim_of_run_ok jl c sr lr v h, hfs]
    simp only [claimField]
    exact lookup_setKey_self fs claimKey c

theorem runFrom_length (jl : String → Except String Json) (env : Env)
    (cs : List Json) : ∀ i : Nat, (runFrom jl env i cs).length = cs.length := by
  induction cs with
  | nil => intro i; rfl
  | cons c rest ih => intro i; simp [runFrom, ih (i + 1)]

theorem runFrom_getElem (jl : String → Except String Json) (env : Env)
    (cs : List Json) : ∀ i k : Nat,
    (runFrom jl env i cs)[k]? =
      (cs[k]?).map (fun c =>
        verify_claim jl c (env.searchResp (i + k)) (env.llmResp (i + k))) := by
  induction cs with
  | nil => intro i k; simp [runFrom]
  | cons c rest ih =>
    intro i k
    cases k with
    | zero => simp [runFrom]
    | succ k =>
      simp only [runFrom, List.getElem?_cons_succ, ih (i + 1) k]
      have : i + 1 + k = i + (k + 1) := by omega
      rw [this]

/-- C1: for every non-empty claim sequence, the verification loop produces
exactly one verdict per claim, in claim order, and the k-th verdict's
`claim` field is the k-th extracted claim (attached at app.py line 119 on
success and line 124 on failure). -/
theorem C1_one_verdict_per_claim_in_order (jl : String → Except String Json)
    (env : Env) (claims : List Json) (_h : claims ≠ []) :
    (runVerification jl env claims).length = claims.length ∧
    ∀ (k : Nat) (c : Json), claims[k]? = some c →
      ∃ v, (runVerification jl env claims)[k]? = some v ∧ claimField v = some c := by
  constructor
  · exact runFrom_length jl env claims 0
  · intro k c hk
    refine ⟨verify_claim jl c (env.searchResp (0 + k)) (env.llmResp (0 + k)), ?_, ?_⟩
    · rw [runVerification, runFrom_getElem jl env claims 0 k, hk]
      rfl
    · exact claimField_verify jl c (env.searchResp (0 + k)) (env.llmResp (0 + k))

/-- Witness for C1 at a concrete input: a singleton claim list. -/
theorem C1_one_verdict_per_claim_in_order_witness :
    (runVerification jl0 env1 claims1).length = claims1.length :=
  (C1_one_verdict_per_claim_in_order jl0 env1 claims1 (by simp [claims1])).1

/-- C8 counterexample: when the upstream response parses as
`[{"claim": ""}]`, `extract_claims` accepts it and returns the empty
claim string, which is empty after trimming (stripping whitespace from
the empty string yields no characters) — the extractor enforces no
non-emptiness invariant. -/
theorem C8_counterexample :
    extract_claims jl8 (Except.ok ("x")) = ([Json.str ("")], []) ∧
    pyStrip ("" : String).data = [] :=
  ⟨rfl, rfl⟩

theorem mapExcept_getClaim (vs : List Json) :
    mapExcept getClaimField (vs.map (fun v => Json.obj [(claimKey, v)])) = .ok vs := by
  induction vs with
  | nil => rfl
  | cons v rest ih =>
    have hl : List.lookup claimKey [(claimKey, v)] = some v :=
      lookup_cons_hit claimKey (claimKey, v) [] rfl
    simp [mapExcept, getClaimField, hl, ih]

/-- C8 amended: `extract_claims` returns the `claim` field values exactly
as parsed, in order, with no trimming and no non-emptiness check; in
particular an empty claim string is passed through unchanged. -/
theorem C8_amended_claims_returned_verbatim (jl : String → Except String Json)
    (s : String) (vs : List Json)
    (h : jl (clean s) = .ok (Json.arr (vs.map (fun v => Json.obj [(claimKey, v)])))) :
    extract_claims jl (Except.ok s) = (vs, []) := by
  simp [extract_claims, extractRun, h, claimsFromData, mapExcept_getClaim]

/-- Witness for C8 amended at a concrete input. -/
theorem C8_amended_claims_returned_verbatim_witness :
    extract_claims jl8w (Except.ok ("x")) = ([Json.str ("a")], []) :=
  C8_amended_claims_returned_verbatim jl8w ("x") [Json.str ("a")] rfl

theorem lookup_none_of_any_false {β : Type} (fields : List (String × β)) (k : String)
    (h : fields.any (fun p => p.fst == k) = false) : fields.lookup k = none := by
  induction fields with
  | nil => rfl
  | cons p rest ih =>
    rw [List.any_cons, Bool.or_eq_false_iff] at h
    rw [lookup_cons_miss k p _ (fun hh => by
      rw [beq_iff_eq.mpr hh] at h
      exact Bool.true_eq_false.mp h.1)]
    exact ih h.2

theorem getClaimField_not_ok (x : Json) (hbad : hasClaimKey x = false) (y : Json) :
    ¬getClaimField x = .ok y := by
  cases x with
  | obj fields =>
    have h0 : fields.any (fun p => p.fst == claimKey) = false := hbad
    simp [getClaimField, lookup_none_of_any_false fields claimKey h0]
  | null => simp [getClaimField]
  | bool b => simp [getClaimField]
  | num n => simp [getClaimField]
  | str s => simp [getClaimField]
  | arr es => simp [getClaimField]

theorem mapExcept_ok_mem {α β : Type} (f : α → Except String β) (xs : List α)
    (ys : List β) (h : mapExcept f xs = .ok ys) :
    ∀ x ∈ xs, ∃ y, f x = .ok y := by
  induction xs generalizing ys with
  | nil => intro x hx; exact absurd hx (List.not_mem_nil x)
  | cons a rest ih =>
    intro x hx
    unfold mapExcept at h
    cases ha : f a with
    | error e => rw [ha] at h; exact Except.noConfusion h
    | ok b =>
      rw [ha] at h
      cases hr : mapExcept f rest with
      | error e => rw [hr] at h; exact Except.noConfusion h
      | ok bs =>
        rcases List.mem_cons.mp hx with rfl | hx2
        · exact ⟨b, ha⟩
        · exact ih bs hr x hx2

/-- C10: extraction is all-or-nothing over the parsed array — if the
response parses as a JSON array in which any element is not a dict
containing the `claim` key, `extract_claims` returns the empty sequence
and reports one error, discarding every well-formed element of the same
array. -/
theorem C10_extraction_all_or_nothing (jl : String → Except String Json)
    (s : String) (xs : List Json) (x : Json)
    (h1 : jl (clean s) = .ok (Json.arr xs)) (hx : x ∈ xs)
    (hbad : hasClaimKey x = false) :
    (extract_claims jl (Except.ok s)).fst = [] ∧
    (extract_claims jl (Except.ok s)).snd.length = 1 := by
  cases hrun : extractRun jl (Except.ok s) with
  | error e => simp [extract_claims, hrun]
  | ok cs =>
    exfalso
    have hstep : extractRun jl (Except.ok s) = mapExcept getClaimField xs := by
      simp [extractRun, h1, claimsFromData]
    rw [hstep] at hrun
    obtain ⟨y, hy⟩ := mapExcept_ok_mem getClaimField xs cs hrun x hx
    exact getClaimField_not_ok x hbad y hy

/-- Witness for C10 at a concrete input: an array with one well-formed
element and one element that is not a dict. -/
theorem C10_extraction_all_or_nothing_witness :
    (extract_claims jl10 (Except.ok ("x"))).fst = [] :=
  (C10_extraction_all_or_nothing jl10 ("x")
    [Json.obj [(claimKey, Json.str ("a"))], Json.str ("bad")] (Json.str ("bad")) rfl
    (List.mem_cons_of_mem _ (List.mem_cons_self _ _)) rfl).1

/-- C3 counterexample: a full run over one claim in which the
classification service answers `{"status": "Maybe"}`.  All four summary
counts are 0 while one claim was extracted, so
`verified + inaccurate + false + error = 0 ≠ 1 = total`: the code
computes the counts by literal string comparison (app.py lines 179-181)
and never validates the status, so the claimed identity fails. -/
theorem C3_counterexample :
    countStatus (runVerification jl0 env1 claims1) ("Verified") = .ok 0 ∧
    countStatus (runVerification jl0 env1 claims1) ("Inaccurate") = .ok 0 ∧
    countStatus (runVerification jl0 env1 claims1) ("False") = .ok 0 ∧
    countStatus (runVerification jl0 env1 claims1) ("Error") = .ok 0 ∧
    (runVerification jl0 env1 claims1).length = 1 ∧ (0 + 0 + 0 + 0 : Nat) ≠ 1 :=
  ⟨rfl, rfl, rfl, rfl, rfl, by decide⟩

/-- C3 amended: when every verdict in the sequence carries a `status`
value that is one of Verified, Inaccurate, False, Error, the four counts
exist and `verified + inaccurate + false + error` equals the total number
of verdicts (equivalently, the error count is the total minus the other
three); the code computes only the first three counts and does not
validate statuses, so the hypothesis is needed. -/
theorem C3_amended_counts_sum (results : List Json)
    (h : ∀ r ∈ results, ∃ s, getField r statusKey = .ok (Json.str s) ∧
      (s = "Verified" ∨ s = "Inaccurate" ∨ s = "False" ∨ s = "Error")) :
    ∃ v i f e, countStatus results ("Verified") = .ok v ∧
      countStatus results ("Inaccurate") = .ok i ∧
      countStatus results ("False") = .ok f ∧
      countStatus results ("Error") = .ok e ∧
      v + i + f + e = results.length := by
  induction results with
  | nil => exact ⟨0, 0, 0, 0, rfl, rfl, rfl, rfl, rfl⟩
  | cons r rest ih =>
    obtain ⟨s, hs, hmem⟩ := h r (List.mem_cons_self r rest)
    obtain ⟨v, i, f, e, hv, hi, hf, he, hsum⟩ :=
      ih (fun r2 hr2 => h r2 (List.mem_cons_of_mem r hr2))
    rcases hmem with h1 | h1 | h1 | h1 <;> subst h1
    · refine ⟨v + 1, i, f, e, ?_, ?_, ?_, ?_, by simp; omega⟩ <;>
        simp [countStatus, hs, hv, hi, hf, he, isStrEq]
    · refine ⟨v, i + 1, f, e, ?_, ?_, ?_, ?_, by simp; omega⟩ <;>
        simp [countStatus, hs, hv, hi, hf, he, isStrEq]
    · refine ⟨v, i, f + 1, e, ?_, ?_, ?_, ?_, by simp; omega⟩ <;>
        simp [countStatus, hs, hv, hi, hf, he, isStrEq]
    · refine ⟨v, i, f, e + 1, ?_, ?_, ?_, ?_, by simp; omega⟩ <;>
        simp [countStatus, hs, hv, hi, hf, he, isStrEq]

/-- Witness for C3 amended at a concrete input: a single failure verdict,
whose status is `Error`. -/
theorem C3_amended_counts_sum_witness :
    ∃ v i f e, countStatus results2 ("Verified") = .ok v ∧
      countStatus results2 ("Inaccurate") = .ok i ∧
      countStatus results2 ("False") = .ok f ∧
      countStatus results2 ("Error") = .ok e ∧
      v + i + f + e = results2.length :=
  C3_amended_counts_sum results2 (by
    intro r hr
    rw [show results2 = [errorVerdict c0 ("network error")] from rfl] at hr
    rcases List.mem_cons.mp hr with rfl | hr2
    · exact ⟨"Error", rfl, Or.inr (Or.inr (Or.inr rfl))⟩
    · exact absurd hr2 (List.not_mem_nil r))

theorem takeUntilFence_cons_ne (c : Char) (hc : ¬c = btick) (r : List Char) :
    takeUntilFence (c :: r) = c :: takeUntilFence r := by
  have h0 : takeUntilFence (c :: r) =
      if (c :: r).take 3 = fence then [] else c :: takeUntilFence r := rfl
  rw [h0, if_neg]
  intro h
  have h1 : (c :: r).take 3 = c :: r.take 2 := rfl
  rw [h1, show fence = btick :: [btick, btick] from rfl] at h
  injection h with h2 h3
  exact hc h2

theorem takeUntilFence_exists_append (l : List Char) :
    ∃ u, takeUntilFence l ++ u = l := by
  induction l with
  | nil => exact ⟨[], rfl⟩
  | cons c r ih =>
    have h0 : takeUntilFence (c :: r) =
        if (c :: r).take 3 = fence then [] else c :: takeUntilFence r := rfl
    by_cases hf : (c :: r).take 3 = fence
    · rw [h0, if_pos hf]
      exact ⟨c :: r, rfl⟩
    · rw [h0, if_neg hf]
      obtain ⟨u, hu⟩ := ih
      exact ⟨u, by rw [List.cons_append, hu]⟩

theorem take_two_shape (l : List Char) (x y : Char) (h : l.take 2 = [x, y]) :
    ∃ l2, l = x :: y :: l2 := by
  cases l with
  | nil => exact absurd h (by simp)
  | cons a l1 =>
    cases l1 with
    | nil => exact absurd h (by simp [List.take])
    | cons b l2 =>
      have h0 : (a :: b :: l2).take 2 = [a, b] := rfl
      rw [h0] at h
      injection h with h1 h2
      injection h2 with h2 h3
      exact ⟨l2, by rw [h1, h2]⟩

theorem fenceFree_takeUntilFence (l : List Char) :
    fenceFree (takeUntilFence l) = true := by
  induction l with
  | nil => rfl
  | cons c r ih =>
    have h0 : takeUntilFence (c :: r) =
        if (c :: r).take 3 = fence then [] else c :: takeUntilFence r := rfl
    by_cases hf : (c :: r).take 3 = fence
    · rw [h0, if_pos hf]
      rfl
    · rw [h0, if_neg hf]
      have h1 : fenceFree (c :: takeUntilFence r) =
          ((!((c :: takeUntilFence r).take 3 == fence)) && fenceFree (takeUntilFence r)) := rfl
      rw [h1, ih, Bool.and_true]
      have hne : ¬(c :: takeUntilFence r).take 3 = fence := by
        intro heq
        have h2 : (c :: takeUntilFence r).take 3 = c :: (takeUntilFence r).take 2 := rfl
        rw [h2, show fence = btick :: [btick, btick] from rfl] at heq
        injection heq with h3 h4
        obtain ⟨u, hu⟩ := takeUntilFence_exists_append r
        obtain ⟨l2, hl2⟩ := take_two_shape (takeUntilFence r) btick btick h4
        apply hf
        have hr : r = btick :: btick :: (l2 ++ u) := by
          rw [← hu, hl2]
          rfl
        rw [show (c :: r).take 3 = c :: r.take 2 from rfl, hr, h3]
        rfl
      rw [beq_eq_false_iff_ne.mpr hne]
      rfl

theorem fenceFree_head (l : List Char) (h : fenceFree l = true) :
    ¬l.take 3 = fence := by
  cases l with
  | nil =>
    intro hc
    exact absurd hc (by simp [fence])
  | cons c r =>
    have h0 : fenceFree (c :: r) =
        ((!((c :: r).take 3 == fence)) && fenceFree r) := rfl
    rw [h0, Bool.and_eq_true] at h
    intro hc
    rw [beq_iff_eq.mpr hc] at h
    exact Bool.noConfusion h.1

theorem fenceFree_tail (c : Char) (r : List Char)
    (h : fenceFree (c :: r) = true) : fenceFree r = true := by
  have h0 : fenceFree (c :: r) =
      ((!((c :: r).take 3 == fence)) && fenceFree r) := rfl
  rw [h0, Bool.and_eq_true] at h
  exact h.2

theorem fenceFree_drop (l : List Char) (h : fenceFree l = true) :
    ∀ n : Nat, fenceFree (l.drop n) = true := by
  induction l with
  | nil => intro n; rw [List.drop_nil]; rfl
  | cons c r ih =>
    intro n
    cases n with
    | zero => exact h
    | succ n =>
      rw [List.drop_succ_cons]
      exact ih (fenceFree_tail c r h) n

theorem fenceFree_stripFencesL (l : List Char) (hf : l.take 3 = fence) :
    fenceFree (stripFencesL l) = true := by
  rw [stripFencesL, if_pos hf]
  show fenceFree (if (takeUntilFence (l.drop 3)).take 4 = jsonTag
    then (takeUntilFence (l.drop 3)).drop 4 else takeUntilFence (l.drop 3)) = true
  split
  · exact fenceFree_drop _ (fenceFree_takeUntilFence _) 4
  · exact fenceFree_takeUntilFence _

theorem stripFencesL_idem (l : List Char) :
    stripFencesL (stripFencesL l) = stripFencesL l := by
  by_cases hf : l.take 3 = fence
  · have hnf : ¬(stripFencesL l).take 3 = fence :=
      fenceFree_head _ (fenceFree_stripFencesL l hf)
    conv_lhs => rw [stripFencesL]
    rw [if_neg hnf]
  · have h1 : stripFencesL l = l := by rw [stripFencesL, if_neg hf]
    rw [h1, h1]

theorem pyStrip_sandwich (a b : Char) (ha : a.isWhitespace = false)
    (hb : b.isWhitespace = false) (m : List Char) :
    pyStrip (a :: (m ++ [b])) = a :: (m ++ [b]) := by
  simp [pyStrip, List.dropWhile_cons, ha, hb, List.reverse_append,
    List.append_assoc]

theorem data_append (a b : String) : (a ++ b).data = a.data ++ b.data := by
  cases a with
  | mk la => cases b with
    | mk lb => rfl

theorem stripFencesL_json_wrapped (p : List Char) :
    stripFencesL (btick :: btick :: btick :: 'j' :: 's' :: 'o' :: 'n' :: '\n' ::
        (p ++ ['\n', btick, btick, btick])) =
      '\n' :: takeUntilFence (p ++ ['\n', btick, btick, btick]) := rfl

theorem stripFencesL_plain_wrapped (p : List Char) :
    stripFencesL (btick :: btick :: btick :: '\n' ::
        (p ++ ['\n', btick, btick, btick])) =
      '\n' :: takeUntilFence (p ++ ['\n', btick, btick, btick]) := rfl

theorem clean_wrapped (p : String) :
    clean (("```json\n") ++ p ++ ("\n```")) =
      clean (("```\n") ++ p ++ ("\n```")) := by
  have hd1 : (("```json\n") ++ p ++ ("\n```")).data =
      btick :: btick :: btick :: 'j' :: 's' :: 'o' :: 'n' :: '\n' ::
        (p.data ++ ['\n', btick, btick, btick]) := by
    rw [data_append, data_append,
      show ("```json\n" : String).data =
        [btick, btick, btick, 'j', 's', 'o', 'n', '\n'] from rfl,
      show ("\n```" : String).data = ['\n', btick, btick, btick] from rfl]
    simp
  have hd2 : (("```\n") ++ p ++ ("\n```")).data =
      btick :: btick :: btick :: '\n' :: (p.data ++ ['\n', btick, btick, btick]) := by
    rw [data_append, data_append,
      show ("```\n" : String).data = [btick, btick, btick, '\n'] from rfl,
      show ("\n```" : String).data = ['\n', btick, btick, btick] from rfl]
    simp
  have hsh1 : btick :: btick :: btick :: 'j' :: 's' :: 'o' :: 'n' :: '\n' ::
      (p.data ++ ['\n', btick, btick, btick]) =
      btick :: ((btick :: btick :: 'j' :: 's' :: 'o' :: 'n' :: '\n' ::
        (p.data ++ ['\n', btick, btick])) ++ [btick]) := by
    simp
  have hsh2 : btick :: btick :: btick :: '\n' ::
      (p.data ++ ['\n', btick, btick, btick]) =
      btick :: ((btick :: btick :: '\n' ::
        (p.data ++ ['\n', btick, btick])) ++ [btick]) := by
    simp
  have hp1 : pyStrip ((("```json\n") ++ p ++ ("\n```")).data) =
      (("```json\n") ++ p ++ ("\n```")).data := by
    rw [hd1, hsh1, pyStrip_sandwich btick btick (by decide) (by decide)]
  have hp2 : pyStrip ((("```\n") ++ p ++ ("\n```")).data) =
      (("```\n") ++ p ++ ("\n```")).data := by
    rw [hd2, hsh2, pyStrip_sandwich btick btick (by decide) (by decide)]
  rw [clean, clean, hp1, hp2, hd1, hd2, stripFencesL_json_wrapped p.data,
    stripFencesL_plain_wrapped p.data]

/-- C7: the markdown-fence-stripping step of app.py lines 55-58 / 112-115
is idempotent and lossless: it is the identity on every string that does
not begin with a fence, applying it twice equals applying it once, and
for every payload `p` the fully cleaned `json`-tagged wrapping
and the untagged wrapping are the same string, hence give the same parse
result under every parser. -/
theorem C7_fence_stripping_algebra :
    (∀ s : String, startsWithFence s = false → stripFences s = s) ∧
    (∀ s : String, stripFences (stripFences s) = stripFences s) ∧
    (∀ (jl : String → Except String Json) (p : String),
      jl (clean (("```json\n") ++ p ++ ("\n```"))) =
        jl (clean (("```\n") ++ p ++ ("\n```")))) := by
  refine ⟨?_, ?_, ?_⟩
  · intro s h
    have hne : ¬s.data.take 3 = fence := by
      intro hc
      rw [startsWithFence, beq_iff_eq.mpr hc] at h
      exact Bool.noConfusion h
    rw [stripFences, stripFencesL, if_neg hne]
  · intro s
    show String.mk (stripFencesL (stripFencesL s.data)) = String.mk (stripFencesL s.data)
    rw [stripFencesL_idem]
  · intro jl p
    exact congrArg jl (clean_wrapped p)

/-- Witness for C7 at concrete inputs: the no-op part at a fence-less
string, together with the concrete instance of the wrapped-payload
equality. -/
theorem C7_fence_stripping_algebra_witness :
    stripFences ("hello") = ("hello") :=
  C7_fence_stripping_algebra.1 ("hello") (by decide)
